import Mathlib

/-!
Verification of the failure-diagnostic remapping engine of this repository
(file src/error.js) against its natural-language specification.

Embedding conventions:
* a JavaScript string is a `List Char`;
* a possibly-`undefined` value (an out-of-range array element, a missed capture
  group) is an `Option (List Char)`, called `Line` below;
* a function that can throw a `TypeError` or fail to terminate returns
  `Option _`, with `none` for "no text result is ever produced";
* the regular expressions of error.js are modelled by explicit scanners that
  reproduce the leftmost-match / lazy / greedy backtracking order of the
  JavaScript regexp engine on the inputs the code feeds them (single lines,
  which never contain a newline character).
-/

/-- Numeric value of a digit string, as JavaScript unary plus on a `\d+` capture. -/
def natOfDigits (ds : List Char) : Nat :=
  ds.foldl (fun n c => n * 10 + (c.toNat - '0'.toNat)) 0

/-- Occurrence test: the pattern occurs in `s` starting at index `k`
(this also forces `k + pat.length ≤ s.length`). -/
def matchAt (s pat : List Char) (k : Nat) : Bool :=
  pat.isPrefixOf (s.drop k)

/-- Largest occurrence start not exceeding `b`, scanning downward. -/
def lastMatchLE (s pat : List Char) : Nat → Option Nat
  | 0 => if matchAt s pat 0 then some 0 else none
  | k + 1 => if matchAt s pat (k + 1) then some (k + 1) else lastMatchLE s pat k

/-- Smallest occurrence start not exceeding `b`. -/
def firstMatchLE (s pat : List Char) : Nat → Option Nat
  | 0 => if matchAt s pat 0 then some 0 else none
  | k + 1 =>
    match firstMatchLE s pat k with
    | some m => some m
    | none => if matchAt s pat (k + 1) then some (k + 1) else none

/-- Clamp of a JavaScript `lastIndexOf` position argument into `[0, length]`. -/
def clampIdx (s : List Char) (p : Int) : Nat :=
  (min (max p 0) (s.length : Int)).toNat

/-- JavaScript `String.prototype.lastIndexOf(pat, pos)`: the largest occurrence
start `k ≤ min(max(pos, 0), length)`, or `-1`. -/
def jsLastIndexOf (s pat : List Char) (pos : Int) : Int :=
  match lastMatchLE s pat (clampIdx s pos) with
  | some k => (k : Int)
  | none => -1

/-- JavaScript `String.prototype.indexOf(pat)`: the smallest occurrence start, or `-1`. -/
def jsIndexOf (s pat : List Char) : Int :=
  match firstMatchLE s pat s.length with
  | some k => (k : Int)
  | none => -1

/-- JavaScript `String.prototype.includes(pat)`. -/
def jsIncludes (s pat : List Char) : Bool :=
  (firstMatchLE s pat s.length).isSome

/-- JavaScript `String.prototype.substr(start, length)` (ECMAScript Annex B):
a negative start counts from the end of the string and is clamped at 0. -/
def jsSubstr (s : List Char) (start len : Int) : List Char :=
  let size : Int := s.length
  let st : Int := if start < 0 then max (size + start) 0 else start
  let ln : Int := min (max len 0) (size - st)
  if ln ≤ 0 then [] else (s.drop st.toNat).take ln.toNat

/-- JavaScript `str.split("\n")`: never empty, keeps empty pieces. -/
def jsSplitNl : List Char → List (List Char)
  | [] => [[]]
  | '\n' :: rest => [] :: jsSplitNl rest
  | c :: rest =>
    match jsSplitNl rest with
    | l :: ls => (c :: l) :: ls
    | [] => [[c]]

/-- Join with a newline separator (`Array.prototype.join("\n")` on plain strings). -/
def joinNl : List (List Char) → List Char
  | [] => []
  | [l] => l
  | l :: ls => l ++ '\n' :: joinNl ls

/-- A stack-line array slot: a string, or the JavaScript `undefined`. -/
abbrev Line := Option (List Char)

/-- JavaScript array read `xs[i]`: `undefined` outside the bounds (including a
negative or non-integral index), and the stored value, possibly itself
`undefined`, inside them. -/
def jsAt (xs : List Line) (i : Int) : Line :=
  if i < 0 then none else (xs.get? i.toNat).join

/-- ToString coercion applied by `RegExp.prototype.exec` to its argument:
`undefined` prints as the string "undefined". -/
def lineToStr (l : Line) : List Char :=
  l.getD ("undefined".toList)

/-- Join of an array that may hold `undefined` slots, as
`Array.prototype.join("\n")`: `undefined` joins as the empty string. -/
def jsJoinNl (ls : List Line) : List Char :=
  joinNl (ls.map (fun l => l.getD []))

/-!
Models of the four regular expressions of error.js.
-/

/-- Model of `lineNumRegExp = /:(\d+)/`: value of the first capture after unary
plus, i.e. the digit run following the leftmost colon that is followed by at
least one digit; `none` when the pattern does not occur. -/
def lineNumExec : List Char → Option Nat
  | [] => none
  | ':' :: rest =>
    let ds := rest.takeWhile Char.isDigit
    if ds.isEmpty then lineNumExec rest else some (natOfDigits ds)
  | _ :: rest => lineNumExec rest

/-- Span search for `columnNumRegExp = /(\d+)(?=\)|$)/`: position and length of
the leftmost maximal digit run whose end is followed by a right parenthesis or
the end of the string.  A start inside a digit run reaches the same run end, so
a run that fails the lookahead can be skipped whole; the first argument is
structural fuel (the string length suffices). -/
def columnNumFindAux : Nat → List Char → Nat → Option (Nat × Nat)
  | 0, _, _ => none
  | _ + 1, [], _ => none
  | fuel + 1, c :: rest, i =>
    if c.isDigit then
      let run := (c :: rest).takeWhile Char.isDigit
      match (c :: rest).drop run.length with
      | [] => some (i, run.length)
      | ')' :: _ => some (i, run.length)
      | _ => columnNumFindAux fuel ((c :: rest).drop run.length) (i + run.length)
    else columnNumFindAux fuel rest (i + 1)

/-- Model of `+columnNumRegExp.exec(s)[1]`: numeric value of the matched digit
run, `none` when `exec` returns `null` (where the code would then throw). -/
def columnNumExec (s : List Char) : Option Nat :=
  match columnNumFindAux (s.length + 1) s 0 with
  | some (i, l) => some (natOfDigits ((s.drop i).take l))
  | none => none

/-- Model of `s.replace(columnNumRegExp, n)` for a nonnegative number `n`:
the matched digit run is replaced by the decimal print of `n`; no match leaves
`s` unchanged. -/
def columnNumReplace (s : List Char) (n : Nat) : List Char :=
  match columnNumFindAux (s.length + 1) s 0 with
  | some (i, l) => s.take i ++ (Nat.repr n).toList ++ s.drop (i + l)
  | none => s

/-- Lookahead suffix test of `filePathRegExp`: the whole remaining string
matches `:\d+:\d+\)?` up to its end.  Both `\d+` are forced maximal: any
shorter digit run ends at a digit, which can satisfy neither the following
colon nor the close-paren-or-end. -/
def fpQualifies (t : List Char) : Bool :=
  match t with
  | ':' :: r1 =>
    let d1 := r1.takeWhile Char.isDigit
    !d1.isEmpty &&
      (match r1.drop d1.length with
       | ':' :: r2 =>
         let d2 := r2.takeWhile Char.isDigit
         !d2.isEmpty &&
           (match r2.drop d2.length with
            | [] => true
            | [')'] => true
            | _ => false)
       | _ => false)
  | _ => false

/-- Lazy capture `(.*?)(?=:\d+:\d+\)?$)`: consume as few characters as possible
until the lookahead holds, `none` when it never does. -/
def fpLazyCapture : List Char → Option (List Char)
  | [] => none
  | c :: rest =>
    if fpQualifies (c :: rest) then some []
    else (fpLazyCapture rest).map (fun cap => c :: cap)

/-- The `\(` alternative of `filePathRegExp`, tried at every start position
left to right: capture after the first open paren from which the lazy capture
succeeds. -/
def fpParenSearch : List Char → Option (List Char)
  | [] => none
  | '(' :: rest =>
    match fpLazyCapture rest with
    | some cap => some cap
    | none => fpParenSearch rest
  | _ :: rest => fpParenSearch rest

/-- Model of `filePathRegExp.exec(s)[1]` for
`/(?:^ {4}at |\()(.*?)(?=:\d+:\d+\)?$)/`: the `^ {4}at ` branch is available
only at the start of the string and is tried before the `\(` branch. -/
def filePathExec (s : List Char) : Option (List Char) :=
  match s with
  | ' ' :: ' ' :: ' ' :: ' ' :: 'a' :: 't' :: ' ' :: rest =>
    match fpLazyCapture rest with
    | some cap => some cap
    | none => fpParenSearch s
  | _ => fpParenSearch s

/-- Literal piece `(\d+):(\d+)\)` of `errorMessageRegExp`, matched at the start
of `s`; returns both digit runs and the remainder after the close paren. -/
def emNums (s : List Char) : Option (List Char × List Char × List Char) :=
  let d1 := s.takeWhile Char.isDigit
  if d1.isEmpty then none
  else
    match s.drop d1.length with
    | ':' :: s2 =>
      let d2 := s2.takeWhile Char.isDigit
      if d2.isEmpty then none
      else
        match s2.drop d2.length with
        | ')' :: s3 => some (d1, d2, s3)
        | _ => none
    | _ => none

/-- Lazy scan `.*?: (.+)` inside the optional tail group of
`errorMessageRegExp`: the capture after the first ": " that still leaves at
least one character. -/
def emFindPath : List Char → Option (List Char)
  | ':' :: ' ' :: (c :: rest) => some (c :: rest)
  | _ :: rest => emFindPath rest
  | [] => none

/-- Optional tail `(?:.*?: (.+))?$` of `errorMessageRegExp`: with the group
when the lazy scan succeeds, without it only at the end of the string;
otherwise this decomposition of the line fails. -/
def emTail (s : List Char) : Option Line :=
  match emFindPath s with
  | some p => some (some p)
  | none => if s.isEmpty then some none else none

/-- Boundary attempt of `errorMessageRegExp` after the second lazy part:
a literal " (", the numbers, and the tail. -/
def emBoundary (u : List Char) : Option (List Char × List Char × List Char × Line) :=
  match u with
  | ' ' :: '(' :: v =>
    match emNums v with
    | some (d1, d2, rest) =>
      match emTail rest with
      | some path => some ([], d1, d2, path)
      | none => none
    | none => none
  | _ => none

/-- Second lazy part ` .+?` of `errorMessageRegExp`: grow the consumed part
(accumulated reversed in `acc`) one character at a time, trying the boundary
first at every length. -/
def emSearchB : List Char → List Char → Option (List Char × List Char × List Char × Line)
  | _, [] => none
  | acc, c :: rest =>
    match emBoundary (c :: rest) with
    | some (_, d1, d2, path) => some (acc.reverse, d1, d2, path)
    | none => emSearchB (c :: acc) rest

/-- First lazy part `^.+?: ` of `errorMessageRegExp`: at each candidate split,
the rest must begin with ": " and the second lazy part must succeed; otherwise
one more character joins the first part. -/
def emSearchA : List Char → List Char → Option (List Char × List Char × List Char × Line)
  | _, [] => none
  | acc, c :: rest =>
    match c :: rest with
    | ':' :: ' ' :: (c2 :: w) =>
      match emSearchB [c2] w with
      | some (bpart, d1, d2, path) =>
        some (acc.reverse ++ ':' :: ' ' :: bpart, d1, d2, path)
      | none => emSearchA (c :: acc) rest
    | _ => emSearchA (c :: acc) rest

/-- Model of `errorMessageRegExp.exec(s)` for
`/^(.+?: .+?) \((\d+):(\d+)\)(?:.*?: (.+))?$/`: `some (desc, line, column,
path)` with `path = none` when the optional group did not participate, `none`
when the whole line fails to match. -/
def errorMessageExec : List Char → Option (List Char × List Char × List Char × Line)
  | [] => none
  | c :: rest => emSearchA [c] rest

/-!
The column-recovery loops of `maskStackLines` (error.js lines 174-190).
-/

/-- Inner loop
`while ((index = sourceLineOfCode.lastIndexOf(clip, index - 1)) > -1) newColumn = index`
of `maskStackLines`.  When a found occurrence start is not below the current
index, the JavaScript loop repeats the same state forever (this happens exactly
at an occurrence at position 0, because `lastIndexOf` clamps a negative
position to 0); that divergence is `none`.  The first argument is structural
fuel: the loop otherwise strictly decreases `index`, so any fuel above
`index.toNat` is enough and the fuel-exhaustion branch is unreachable from the
call sites below. -/
def lastIndexLoopF (src clip : List Char) : Nat → Int → Int → Option Int
  | 0, _, _ => none
  | fuel + 1, index, newColumn =>
    let r := jsLastIndexOf src clip (index - 1)
    if r > -1 then
      if r < index then lastIndexLoopF src clip fuel r r else none
    else some newColumn

/-- Outer loop `while (clipLength-- > 1 && newColumn < 0)` of `maskStackLines`:
the test uses the pre-decrement value, the body the decremented one, and the
body re-clamps `clipLength` to the actual clip length.  Fuel is structural;
`clipLength` strictly decreases across iterations, so any fuel above
`clipLength` is enough and the fuel-exhaustion branch is unreachable from the
call sites below. -/
def clipLoopF (stackLineOfCode sourceLineOfCode : List Char) (column : Int) :
    Nat → Nat → Int → Option Int
  | 0, _, _ => none
  | fuel + 1, clipLength, newColumn =>
    if 1 < clipLength ∧ newColumn < 0 then
      let cl := clipLength - 1
      let clip := jsSubstr stackLineOfCode column (cl : Int)
      let cl2 := min cl clip.length
      match lastIndexLoopF sourceLineOfCode clip ((column + 1).toNat + 1)
          (column + 1) newColumn with
      | none => none
      | some nc => clipLoopF stackLineOfCode sourceLineOfCode column fuel cl2 nc
    else some newColumn

/-- Column recovery as error.js performs it, from `let clipLength = 6` and
`let newColumn = -1`: `some c` with `c ≥ 0` is a recovered column, `some (-1)`
means no clip matched, `none` means the search loops forever. -/
def codeRecoverColumn (stackLineOfCode sourceLineOfCode : List Char) (column : Int) :
    Option Int :=
  clipLoopF stackLineOfCode sourceLineOfCode column 7 6 (-1)

/-!
The masking functions of error.js.  `__non_webpack_filename__` is the path of
the engine's own bundled module, injected by the bundler; it is the `selfPath`
parameter here.
-/

/-- Model of `scrubStack` (error.js lines 204-209): drop every line that
contains the engine's own module path. -/
def scrubStack (selfPath stack : List Char) : List Char :=
  joinNl ((jsSplitNl stack).filter (fun line => !jsIncludes line selfPath))

/-- Model of `fillStackLines` (error.js lines 93-110).  `none` models the
`TypeError` thrown by `columnNumRegExp.exec(stackFrame)[1]` or
`filePathRegExp.exec(stackFrame)[1]` when the frame line matches the
line-number pattern but not the column or path pattern.  The compiled-code line
can be `undefined` when the parsed line number is out of range. -/
def fillStackLines (stackLines : List Line) (sourceCode compiledCode : List Char) :
    Option (List Line) :=
  let stackFrame := lineToStr (jsAt stackLines 1)
  match lineNumExec stackFrame with
  | none => some stackLines
  | some lineNum =>
    match columnNumExec stackFrame with
    | none => none
    | some column =>
      match filePathExec stackFrame with
      | none => none
      | some filePath =>
        some (some (filePath ++ ':' :: (Nat.repr lineNum).toList) ::
          jsAt ((jsSplitNl compiledCode).map some) ((lineNum : Int) - 1) ::
          some (List.replicate column ' ' ++ ['^']) ::
          some [] ::
          stackLines)

/-- Model of `maskStackLines` (error.js lines 160-202), returning the mutated
line array.  `none` models a thrown `TypeError` (`stackLines[2].indexOf` on
`undefined`, `substr`/`lastIndexOf` on an `undefined` line inside the clip
loop, which always runs at least once, or `stackLines[5].replace` on
`undefined`) or the nonterminating inner search. -/
def maskStackLines (stackLines : List Line) (sourceCode : List Char) :
    Option (List Line) :=
  match lineNumExec (lineToStr (jsAt stackLines 0)) with
  | none => some stackLines
  | some lineNum =>
    match jsAt stackLines 2 with
    | none => none
    | some indicator =>
      let column : Int := jsIndexOf indicator ['^']
      let lines : List Line := (jsSplitNl sourceCode).map some
      let sourceLineOfCode : Line := jsAt lines ((lineNum : Int) - 1)
      let stackLineOfCode : Line := jsAt stackLines 1
      let stackLines1 := stackLines.set 1 sourceLineOfCode
      match stackLineOfCode, sourceLineOfCode with
      | some stackLine, some srcLine =>
        match codeRecoverColumn stackLine srcLine column with
        | none => none
        | some newColumn =>
          let afterBranch : Option (List Line) :=
            if newColumn < 0 then
              some (stackLines1.take 2 ++ stackLines1.drop 3)
            else if newColumn < column then
              let t := stackLines1.set 2
                (some (List.replicate newColumn.toNat ' ' ++ ['^']))
              match jsAt t 5 with
              | none => none
              | some s5 => some (t.set 5 (some (columnNumReplace s5 newColumn.toNat)))
            else some stackLines1
          match afterBranch with
          | none => none
          | some ls =>
            match jsAt ls 0 with
            | none => none
            | some l0 =>
              if ("repl:".toList).isPrefixOf l0 then some (ls.drop 1) else some ls
      | _, _ => none

/-- Model of `maskStack` (error.js lines 147-158): scrub, optionally fill a
bare header when compiled code is available, then remap the context block. -/
def maskStack (selfPath stack sourceCode : List Char)
    (compiledCode : Option (List Char)) : Option (List Char) :=
  let scrubbed := scrubStack selfPath stack
  let stackLines : List Line := (jsSplitNl scrubbed).map some
  let filled : Option (List Line) :=
    match compiledCode with
    | some compiled =>
      if lineNumExec (lineToStr (jsAt stackLines 0)) = none then
        fillStackLines stackLines sourceCode compiled
      else some stackLines
    | none => some stackLines
  match filled with
  | none => none
  | some ls =>
    match maskStackLines ls sourceCode with
    | none => none
    | some ls2 => some (jsJoinNl ls2)

/-- Model of `maskParserStack` (error.js lines 122-145).  When the header fails
`errorMessageRegExp`, all four parts are `undefined`: the spliced-in code line
is `undefined` (array index `NaN`), the indicator is a bare caret
(`" ".repeat(undefined)` is the empty string), and the restated description is
`undefined`; `Array.prototype.join` later renders the `undefined` slots as
empty strings.  This function is total: no operation on this path can throw. -/
def maskParserStack (selfPath stack sourceCode : List Char) : List Char :=
  let scrubbed := scrubStack selfPath stack
  let stackLines : List Line := (jsSplitNl scrubbed).map some
  let spliceNew : List Line :=
    match errorMessageExec (lineToStr (jsAt stackLines 0)) with
    | some (desc, lineNum, column, filePath) =>
      (match filePath with
       | some fp => [some (fp ++ ':' :: lineNum)]
       | none => []) ++
      [jsAt ((jsSplitNl sourceCode).map some) ((natOfDigits lineNum : Int) - 1),
       some (List.replicate (natOfDigits column) ' ' ++ ['^']),
       some [],
       some desc]
    | none => [none, some ['^'], some [], none]
  jsJoinNl (spliceNew ++ stackLines.drop 1)

/-!
The deferred-decoration wrapper `ErrorUtils.maskStackTrace` (error.js lines
29-51).  The proxy get trap for the key "stack" is modelled as a state
transition; the masking dispatch (`utils.isParseError` chooses `maskParserStack`
or `maskStack`, and `utils.js` is outside this file's source) is a parameter
`mask`, which the claims instantiate with the maskers above.  The host-runtime
calls of `decorateStackTrace` only touch hidden V8 decoration state and are not
part of the returned text.
-/

/-- State of one wrapped Failure: the trap flag of the proxy closure, the
underlying error object's own `stack` property, and instrumentation counters
for the calls of the source-buffer producer and of the masking computation. -/
structure WrapState where
  trapSet : Bool
  errStack : List Char
  producerCalls : Nat
  maskCalls : Nat
deriving DecidableEq

/-- One read of the `stack` attribute through the proxy: on the first read the
producer is invoked, the trap flag set, the mask computed and assigned to the
error's own `stack` property (`error.stack = ...`); a mask that throws
(`mask _ = none`) still consumes the producer call and the trap flag, but
assigns nothing.  Later reads are plain property reads of the mutated error. -/
def maskStackTraceGet (mask : List Char → Option (List Char)) (s : WrapState) :
    Option (List Char) × WrapState :=
  if s.trapSet then (some s.errStack, s)
  else
    match mask s.errStack with
    | some t => (some t, ⟨true, t, s.producerCalls + 1, s.maskCalls + 1⟩)
    | none => (none, ⟨true, s.errStack, s.producerCalls + 1, s.maskCalls + 1⟩)

/-- State after `n` consecutive reads of the `stack` attribute. -/
def readsState (mask : List Char → Option (List Char)) : Nat → WrapState → WrapState
  | 0, s => s
  | n + 1, s => readsState mask n (maskStackTraceGet mask s).2

/-- Value returned by the `k`-th read (1-based) of the `stack` attribute. -/
def readValue (mask : List Char → Option (List Char)) (s : WrapState) (k : Nat) :
    Option (List Char) :=
  (maskStackTraceGet mask (readsState mask (k - 1) s)).1

/-!
Specification-side definitions (for the refinement claims about Column
Recovery).  These follow the words of the claims, to be compared with
`codeRecoverColumn` above.
-/

/-- Modelled from the words of claim C1 (and spec section 4.3): for each clip
length try the substring of the generated line starting at the reported column
with that length, and take the last occurrence of that clip in the original
line at or before position `column + 1`. -/
def claimRecoverGo (stackLineOfCode sourceLineOfCode : List Char) (column : Int) :
    List Nat → Option Int
  | [] => none
  | L :: Ls =>
    let clip := jsSubstr stackLineOfCode column (L : Int)
    let r := jsLastIndexOf sourceLineOfCode clip (column + 1)
    if 0 ≤ r then some r
    else claimRecoverGo stackLineOfCode sourceLineOfCode column Ls

/-- Modelled from the words of claim C1: clip lengths run from 6 down to 2,
largest first, and the first length that yields any match determines the
recovered column. -/
def claimRecoverColumn (stackLineOfCode sourceLineOfCode : List Char)
    (column : Int) : Option Int :=
  claimRecoverGo stackLineOfCode sourceLineOfCode column [6, 5, 4, 3, 2]

/-- Descending length list `[n, n-1, ..., 1]`. -/
def lengthsList : Nat → List Nat
  | 0 => []
  | n + 1 => (n + 1) :: lengthsList n

/-- Modelled from the amended words for claim C1, one candidate length at a
time: the clip is the substring of the generated line starting at the reported
column with the candidate length (truncated at the line end); the search finds
the earliest occurrence of the clip in the original line that starts at or
before the reported column (clamped into the line); a clip whose earliest such
occurrence is position 0 makes the search loop forever; if no candidate length
yields a match the recovery reports no match (-1). -/
def specRecoverGo (stackLineOfCode sourceLineOfCode : List Char) (column : Int) :
    List Nat → Option Int
  | [] => some (-1)
  | L :: Ls =>
    let clip := jsSubstr stackLineOfCode column (L : Int)
    match firstMatchLE sourceLineOfCode clip (clampIdx sourceLineOfCode column) with
    | some 0 => none
    | some m => some (m : Int)
    | none => specRecoverGo stackLineOfCode sourceLineOfCode column Ls

/-- Modelled from the amended words for claim C1: candidate clip lengths run
from 5 down to 1, largest first. -/
def specRecoverColumn (stackLineOfCode sourceLineOfCode : List Char)
    (column : Int) : Option Int :=
  specRecoverGo stackLineOfCode sourceLineOfCode column (lengthsList 5)

/-!
Characterizations of the occurrence scans.
-/

theorem lastMatchLE_none_iff (s pat : List Char) :
    ∀ b, lastMatchLE s pat b = none ↔ ∀ j, j ≤ b → matchAt s pat j = false := by
  intro b
  induction b with
  | zero =>
    constructor
    · intro h j hj
      have hj0 : j = 0 := Nat.le_zero.mp hj
      subst hj0
      by_contra hc
      simp only [Bool.not_eq_false] at hc
      simp [lastMatchLE, hc] at h
    · intro h
      simp [lastMatchLE, h 0 (Nat.le_refl 0)]
  | succ k ih =>
    constructor
    · intro h j hj
      by_cases hk : matchAt s pat (k + 1)
      · simp [lastMatchLE, hk] at h
      · simp only [lastMatchLE, hk, if_false, Bool.false_eq_true] at h
        rcases Nat.lt_succ_iff_lt_or_eq.mp (Nat.lt_succ_of_le hj) with hlt | heq
        · exact (ih.mp h) j (Nat.lt_succ_iff.mp hlt)
        · subst heq
          exact Bool.eq_false_iff.mpr hk
    · intro h
      have hk : matchAt s pat (k + 1) = false := h (k + 1) (Nat.le_refl _)
      simp only [lastMatchLE, hk, Bool.false_eq_true, if_false]
      exact (ih.mpr (fun j hj => h j (Nat.le_succ_of_le hj)))

theorem lastMatchLE_some (s pat : List Char) :
    ∀ b k, lastMatchLE s pat b = some k →
      matchAt s pat k = true ∧ k ≤ b ∧
        ∀ j, j ≤ b → matchAt s pat j = true → j ≤ k := by
  intro b
  induction b with
  | zero =>
    intro k h
    by_cases h0 : matchAt s pat 0
    · simp only [lastMatchLE, h0, if_true, Option.some.injEq] at h
      subst h
      exact ⟨h0, Nat.le_refl 0, fun j hj _ => hj⟩
    · simp [lastMatchLE, h0] at h
  | succ b ih =>
    intro k h
    by_cases hb : matchAt s pat (b + 1)
    · simp only [lastMatchLE, hb, if_true, Option.some.injEq] at h
      subst h
      exact ⟨hb, Nat.le_refl _, fun j hj _ => hj⟩
    · simp only [lastMatchLE, hb, Bool.false_eq_true, if_false] at h
      obtain ⟨h1, h2, h3⟩ := ih k h
      refine ⟨h1, Nat.le_succ_of_le h2, fun j hj hmj => ?_⟩
      rcases Nat.lt_succ_iff_lt_or_eq.mp (Nat.lt_succ_of_le hj) with hlt | heq
      · exact h3 j (Nat.lt_succ_iff.mp hlt) hmj
      · subst heq
        exact absurd hmj (Bool.eq_false_iff.mp (Bool.eq_false_iff.mpr hb))

theorem firstMatchLE_none_iff (s pat : List Char) :
    ∀ b, firstMatchLE s pat b = none ↔ ∀ j, j ≤ b → matchAt s pat j = false := by
  intro b
  induction b with
  | zero =>
    constructor
    · intro h j hj
      have hj0 : j = 0 := Nat.le_zero.mp hj
      subst hj0
      by_contra hc
      simp only [Bool.not_eq_false] at hc
      simp [firstMatchLE, hc] at h
    · intro h
      simp [firstMatchLE, h 0 (Nat.le_refl 0)]
  | succ b ih =>
    constructor
    · intro h j hj
      simp only [firstMatchLE] at h
      rcases hprev : firstMatchLE s pat b with _ | m
      · rw [hprev] at h
        by_cases hb : matchAt s pat (b + 1)
        · simp [hb] at h
        · rcases Nat.lt_succ_iff_lt_or_eq.mp (Nat.lt_succ_of_le hj) with hlt | heq
          · exact (ih.mp hprev) j (Nat.lt_succ_iff.mp hlt)
          · subst heq
            exact Bool.eq_false_iff.mpr hb
      · rw [hprev] at h
        exact absurd h (by simp)
    · intro h
      have hprev : firstMatchLE s pat b = none :=
        (ih).mpr (fun j hj => h j (Nat.le_succ_of_le hj))
      simp [firstMatchLE, hprev, h (b + 1) (Nat.le_refl _)]

theorem firstMatchLE_some (s pat : List Char) :
    ∀ b m, firstMatchLE s pat b = some m →
      matchAt s pat m = true ∧ m ≤ b ∧ ∀ j, j < m → matchAt s pat j = false := by
  intro b
  induction b with
  | zero =>
    intro m h
    by_cases h0 : matchAt s pat 0
    · simp only [firstMatchLE, h0, if_true, Option.some.injEq] at h
      subst h
      exact ⟨h0, Nat.le_refl 0, fun j hj => absurd hj (Nat.not_lt_zero j)⟩
    · simp [firstMatchLE, h0] at h
  | succ b ih =>
    intro m h
    simp only [firstMatchLE] at h
    rcases hprev : firstMatchLE s pat b with _ | m0
    · rw [hprev] at h
      by_cases hb : matchAt s pat (b + 1)
      · simp only [hb, if_true, Option.some.injEq] at h
        subst h
        refine ⟨hb, Nat.le_refl _, fun j hj => ?_⟩
        exact ((firstMatchLE_none_iff s pat b).mp hprev) j (Nat.lt_succ_iff.mp hj)
      · simp [hb] at h
    · rw [hprev] at h
      have hm : m0 = m := by simpa using h
      subst hm
      obtain ⟨h1, h2, h3⟩ := ih m0 hprev
      exact ⟨h1, Nat.le_succ_of_le h2, h3⟩

theorem firstMatchLE_determines (s pat : List Char) (m : Nat)
    (hm : matchAt s pat m = true) (hmin : ∀ j, j < m → matchAt s pat j = false) :
    ∀ b, m ≤ b → firstMatchLE s pat b = some m := by
  intro b
  induction b with
  | zero =>
    intro hb
    have hm0 : m = 0 := Nat.le_zero.mp hb
    subst hm0
    simp [firstMatchLE, hm]
  | succ b ih =>
    intro hb
    rcases Nat.lt_succ_iff_lt_or_eq.mp (Nat.lt_succ_of_le hb) with hlt | heq
    · have := ih (Nat.lt_succ_iff.mp hlt)
      simp [firstMatchLE, this]
    · subst heq
      have hprev : firstMatchLE s pat b = none :=
        (firstMatchLE_none_iff s pat b).mpr
          (fun j hj => hmin j (Nat.lt_succ_of_le hj))
      simp [firstMatchLE, hprev, hm]

theorem clampIdx_cast (s : List Char) (p : Int) :
    (clampIdx s p : Int) = min (max p 0) (s.length : Int) := by
  simp only [clampIdx]
  omega

theorem clampIdx_le_len (s : List Char) (p : Int) : clampIdx s p ≤ s.length := by
  simp only [clampIdx]
  omega

theorem clampIdx_le_max (s : List Char) (p : Int) : (clampIdx s p : Int) ≤ max p 0 := by
  simp only [clampIdx]
  omega

theorem clampIdx_of_range (s : List Char) (p : Int) (h0 : 0 ≤ p)
    (hl : p ≤ (s.length : Int)) : (clampIdx s p : Int) = p := by
  simp only [clampIdx]
  omega

/-- The inner search loop of `maskStackLines`, fully characterized: with the
running column still unset it returns it unchanged when no occurrence of the
clip starts at or before the clamped position, diverges when the earliest such
occurrence is position 0, and otherwise lands on the earliest occurrence. -/
theorem lastIndexLoopF_eq_spec (src clip : List Char) :
    ∀ (fuel : Nat) (index nc : Int), index.toNat < fuel →
      lastIndexLoopF src clip fuel index nc =
        match firstMatchLE src clip (clampIdx src (index - 1)) with
        | none => some nc
        | some m => if m = 0 then none else some (m : Int) := by
  intro fuel
  induction fuel with
  | zero => intro index nc h; exact absurd h (Nat.not_lt_zero _)
  | succ f ih =>
    intro index nc hfuel
    simp only [lastIndexLoopF]
    rcases hlast : lastMatchLE src clip (clampIdx src (index - 1)) with _ | k
    · have hr : jsLastIndexOf src clip (index - 1) = -1 := by
        simp [jsLastIndexOf, hlast]
      have hfm : firstMatchLE src clip (clampIdx src (index - 1)) = none :=
        (firstMatchLE_none_iff src clip _).mpr
          ((lastMatchLE_none_iff src clip _).mp hlast)
      rw [hr, hfm]
      norm_num
    · have hr : jsLastIndexOf src clip (index - 1) = (k : Int) := by
        simp [jsLastIndexOf, hlast]
      obtain ⟨hkm, hkb, hkmax⟩ := lastMatchLE_some src clip _ k hlast
      have hgt : ((k : Int) > -1) := by omega
      rw [hr, if_pos hgt]
      by_cases hlt : (k : Int) < index
      · rw [if_pos hlt]
        have hkf : ((k : Int)).toNat < f := by omega
        rw [ih (k : Int) (k : Int) hkf]
        rcases k with _ | k'
        · -- occurrence at 0: both sides diverge
          have hc0 : clampIdx src ((0 : Int) - 1) = 0 := by
            have := clampIdx_le_max src ((0 : Int) - 1)
            omega
          have hfm0 : firstMatchLE src clip 0 = some 0 := by
            simp [firstMatchLE, hkm]
          have hfmb : firstMatchLE src clip (clampIdx src (index - 1)) = some 0 :=
            firstMatchLE_determines src clip 0 hkm
              (fun j hj => absurd hj (Nat.not_lt_zero j)) _ (Nat.zero_le _)
          rw [hfmb]
          simp only [Int.natCast_zero] at hc0 ⊢
          rw [show ((0 : Int) - 1) = -1 by ring] at hc0
          rw [show ((0 : Int) - 1) = -1 by ring]
          rw [hc0, hfm0]
          simp
        · -- occurrence at k' + 1
          have hk'len : (k' : Int) ≤ (src.length : Int) := by
            have h1 := clampIdx_le_len src (index - 1)
            omega
          have hclam : clampIdx src (k' : Int) = k' := by
            have := clampIdx_of_range src (k' : Int) (by omega) hk'len
            omega
          rw [show ((((k' + 1 : Nat)) : Int) - 1) = (k' : Int) by push_cast; ring]
          rw [hclam]
          rcases hfm' : firstMatchLE src clip k' with _ | m
          · -- nothing earlier: k' + 1 is the earliest occurrence
            have hfmb : firstMatchLE src clip (clampIdx src (index - 1)) =
                some (k' + 1) :=
              firstMatchLE_determines src clip (k' + 1) hkm
                (fun j hj => ((firstMatchLE_none_iff src clip k').mp hfm') j
                  (Nat.lt_succ_iff.mp hj)) _ hkb
            rw [hfmb]
            simp
          · -- an earlier occurrence m is the answer on both sides
            obtain ⟨hm1, hm2, hm3⟩ := firstMatchLE_some src clip k' m hfm'
            have hfmb : firstMatchLE src clip (clampIdx src (index - 1)) = some m :=
              firstMatchLE_determines src clip m hm1
                (fun j hj => hm3 j hj) _
                (Nat.le_trans (Nat.le_trans hm2 (Nat.le_succ k')) hkb)
            rw [hfmb]
      · rw [if_neg hlt]
        -- the found occurrence is not below the index: only possible as a
        -- repeat at position 0 with a nonpositive index, where the JavaScript
        -- loop never exits
        have hmax := clampIdx_le_max src (index - 1)
        have hk0 : k = 0 := by omega
        subst hk0
        have hfmb : firstMatchLE src clip (clampIdx src (index - 1)) = some 0 :=
          firstMatchLE_determines src clip 0 hkm
            (fun j hj => absurd hj (Nat.not_lt_zero j)) _ (Nat.zero_le _)
        rw [hfmb]
        simp

/-- Clamped start index of `substr`, as a natural number. -/
def clampStart (s : List Char) (c : Int) : Nat :=
  (if c < 0 then max ((s.length : Int) + c) 0 else c).toNat

/-- Normal form of `substr` for a natural length: a drop followed by a take. -/
theorem jsSubstr_eq_take (s : List Char) (c : Int) (L : Nat) :
    jsSubstr s c (L : Int) = (s.drop (clampStart s c)).take L := by
  simp only [jsSubstr, clampStart]
  set st : Int := if c < 0 then max ((s.length : Int) + c) 0 else c with hstdef
  have hst : 0 ≤ st := by rw [hstdef]; split <;> omega
  rw [max_eq_left (Int.natCast_nonneg L)]
  split
  · next h =>
    rcases min_le_iff.mp h with h1 | h1
    · have : L = 0 := by omega
      subst this
      simp
    · have hlen : s.length ≤ st.toNat := by omega
      rw [List.drop_eq_nil_of_le hlen]
      simp
  · next h =>
    push_neg at h
    rcases le_total (L : Int) ((s.length : Int) - st) with h2 | h2
    · rw [min_eq_left h2]
      simp
    · rw [min_eq_right h2]
      have hlen : (s.drop st.toNat).length = ((s.length : Int) - st).toNat := by
        rw [List.length_drop]
        omega
      rw [← hlen, List.take_length]
      exact (List.take_of_length_le (by omega)).symm

/-- The clip length is at most the requested length. -/
theorem jsSubstr_len_le (s : List Char) (c : Int) (L : Nat) :
    (jsSubstr s c (L : Int)).length ≤ L := by
  rw [jsSubstr_eq_take]
  rw [List.length_take]
  omega

/-- A clip shorter than requested is the whole available suffix, so every
request of at least that many characters yields the same clip. -/
theorem jsSubstr_stable (s : List Char) (c : Int) (L : Nat)
    (h : (jsSubstr s c (L : Int)).length < L) :
    ∀ L' : Nat, (jsSubstr s c (L : Int)).length ≤ L' →
      jsSubstr s c (L' : Int) = jsSubstr s c (L : Int) := by
  intro L' hL'
  rw [jsSubstr_eq_take s c L] at h hL'
  rw [jsSubstr_eq_take s c L', jsSubstr_eq_take s c L]
  rw [List.length_take] at h hL'
  have hdl : (s.drop (clampStart s c)).length < L := by omega
  have hfull : (s.drop (clampStart s c)).take L = s.drop (clampStart s c) :=
    List.take_of_length_le (Nat.le_of_lt hdl)
  rw [hfull]
  exact List.take_of_length_le (by omega)

/-- Candidate lengths whose clip is already the truncated one produce the same
clip and are skipped by the amended specification, so the length list can be
collapsed down to the first length at which the clip changes. -/
theorem specRecoverGo_collapse (g o : List Char) (c : Int) (clip : List Char)
    (a : Nat) (ha : 1 ≤ a)
    (htr : ∀ L : Nat, a ≤ L → jsSubstr g c (L : Int) = clip)
    (hfm : firstMatchLE o clip (clampIdx o c) = none) :
    ∀ m : Nat, a - 1 ≤ m →
      specRecoverGo g o c (lengthsList m) = specRecoverGo g o c (lengthsList (a - 1)) := by
  intro m
  induction m with
  | zero =>
    intro h
    have h0 : a - 1 = 0 := Nat.le_zero.mp h
    rw [h0]
  | succ m ih =>
    intro h
    by_cases he : a - 1 = m + 1
    · rw [he]
    · have h1 : a - 1 ≤ m := by omega
      have h2 : a ≤ m + 1 := by omega
      have hstep : specRecoverGo g o c (lengthsList (m + 1)) =
          specRecoverGo g o c (lengthsList m) := by
        simp only [lengthsList, specRecoverGo]
        rw [htr (m + 1) h2, hfm]
      rw [hstep]
      exact ih h1

/-- The outer clip loop of `maskStackLines`, started with `newColumn = -1`,
agrees with the amended specification run over the candidate lengths from
`clipLength - 1` down to 1. -/
theorem clipLoopF_eq_spec (g o : List Char) (c : Int) :
    ∀ (fuel clipLength : Nat), clipLength < fuel →
      clipLoopF g o c fuel clipLength (-1) =
        specRecoverGo g o c (lengthsList (clipLength - 1)) := by
  intro fuel
  induction fuel with
  | zero => intro cl h; exact absurd h (Nat.not_lt_zero _)
  | succ f ih =>
    intro cl hcl
    by_cases h1 : 1 < cl
    · simp only [clipLoopF]
      rw [if_pos ⟨h1, by norm_num⟩]
      have hinner := lastIndexLoopF_eq_spec o (jsSubstr g c ((cl - 1 : Nat) : Int))
        ((c + 1).toNat + 1) (c + 1) (-1) (by omega)
      rw [show (c + 1 : Int) - 1 = c by ring] at hinner
      obtain ⟨n, hn⟩ : ∃ n, cl - 1 = n + 1 := ⟨cl - 2, by omega⟩
      rcases hfm : firstMatchLE o (jsSubstr g c ((cl - 1 : Nat) : Int))
          (clampIdx o c) with _ | m
      · -- this clip never occurs at or before the column: next length
        rw [hfm] at hinner
        simp only at hinner
        rw [hinner]
        dsimp only
        have hmin : min (cl - 1) (jsSubstr g c ((cl - 1 : Nat) : Int)).length < f := by
          have := jsSubstr_len_le g c (cl - 1)
          omega
        rw [ih _ hmin]
        have hrhs : specRecoverGo g o c (lengthsList (cl - 1)) =
            specRecoverGo g o c (lengthsList n) := by
          rw [hn]
          simp only [lengthsList, specRecoverGo]
          rw [← hn, hfm]
        rw [hrhs]
        rcases le_or_lt (cl - 1) (jsSubstr g c ((cl - 1 : Nat) : Int)).length with hba | hba
        · have hmm : min (cl - 1) (jsSubstr g c ((cl - 1 : Nat) : Int)).length - 1 = n := by
            rw [min_eq_left hba]
            omega
          rw [hmm]
        · rw [min_eq_right (Nat.le_of_lt hba)]
          have ha : 1 ≤ (jsSubstr g c ((cl - 1 : Nat) : Int)).length := by
            by_contra hc0
            have ha0 : (jsSubstr g c ((cl - 1 : Nat) : Int)).length = 0 := by omega
            have hclip : jsSubstr g c ((cl - 1 : Nat) : Int) = [] :=
              List.eq_nil_of_length_eq_zero ha0
            have h00 := (firstMatchLE_none_iff o _ _).mp hfm 0 (Nat.zero_le _)
            rw [hclip] at h00
            simp [matchAt, List.isPrefixOf] at h00
          have hcoll := specRecoverGo_collapse g o c
            (jsSubstr g c ((cl - 1 : Nat) : Int))
            (jsSubstr g c ((cl - 1 : Nat) : Int)).length ha
            (fun L hL => jsSubstr_stable g c (cl - 1) (by omega) L hL)
            hfm
          have hend := hcoll n (by omega)
          rw [hend]
      · -- this clip occurs: the loop exits (or diverges at position 0)
        rw [hfm] at hinner
        simp only at hinner
        have hrhs : specRecoverGo g o c (lengthsList (cl - 1)) =
            (if m = 0 then none else some (m : Int)) := by
          rw [hn]
          simp only [lengthsList, specRecoverGo]
          rw [← hn, hfm]
          rcases m with _ | m' <;> simp
        rw [hrhs]
        rcases m with _ | m'
        · norm_num at hinner ⊢
          rw [hinner]
        · norm_num at hinner ⊢
          rw [hinner]
          dsimp only
          obtain ⟨f', hf'⟩ : ∃ f', f = f' + 1 := ⟨f - 1, by omega⟩
          rw [hf']
          simp only [clipLoopF]
          rw [if_neg (by push_neg; intro _; positivity)]
    · simp only [clipLoopF]
      rw [if_neg (by omega)]
      have h0 : cl - 1 = 0 := by omega
      rw [h0]
      simp [lengthsList, specRecoverGo]

/-- Claim C1, amended: the column recovery the code performs is exactly the
amended specification's shrinking-substring search. -/
theorem c1_recover_algorithm (stackLineOfCode sourceLineOfCode : List Char)
    (column : Int) :
    codeRecoverColumn stackLineOfCode sourceLineOfCode column =
      specRecoverColumn stackLineOfCode sourceLineOfCode column := by
  have h := clipLoopF_eq_spec stackLineOfCode sourceLineOfCode column 7 6 (by omega)
  simpa [codeRecoverColumn, specRecoverColumn] using h

theorem jsSplitNl_ne_nil (s : List Char) : jsSplitNl s ≠ [] := by
  unfold jsSplitNl
  split
  · simp
  · simp
  · split <;> simp

theorem jsSplitNl_newline (rest : List Char) :
    jsSplitNl ('\n' :: rest) = [] :: jsSplitNl rest := rfl

theorem jsSplitNl_other (c : Char) (rest : List Char) (h : c ≠ '\n') :
    jsSplitNl (c :: rest) = match jsSplitNl rest with
      | l :: ls => (c :: l) :: ls
      | [] => [[c]] := by
  simp [jsSplitNl, h]

/-- Splitting on newlines and joining back is the identity. -/
theorem joinNl_jsSplitNl (s : List Char) : joinNl (jsSplitNl s) = s := by
  induction s with
  | nil => rfl
  | cons c rest ih =>
    rcases h : jsSplitNl rest with _ | ⟨l, ls⟩
    · exact absurd h (jsSplitNl_ne_nil rest)
    · by_cases hc : c = '\n'
      · subst hc
        rw [jsSplitNl_newline, h]
        rw [h] at ih
        show [] ++ '\n' :: joinNl (l :: ls) = '\n' :: rest
        rw [ih]
        rfl
      · rw [jsSplitNl_other c rest hc, h]
        rw [h] at ih
        rcases ls with _ | ⟨l2, ls2⟩
        · show c :: l = c :: rest
          rw [show joinNl [l] = l from rfl] at ih
          rw [ih]
        · show (c :: l) ++ '\n' :: joinNl (l2 :: ls2) = c :: rest
          rw [show joinNl (l :: l2 :: ls2) = l ++ '\n' :: joinNl (l2 :: ls2) from rfl] at ih
          simp only [List.cons_append]
          rw [ih]

/-- A line array freshly produced by splitting joins back to the split text. -/
theorem jsJoinNl_map_some (s : List Char) : jsJoinNl ((jsSplitNl s).map some) = s := by
  unfold jsJoinNl
  rw [List.map_map]
  have : ((fun l : Line => l.getD []) ∘ some) = (id : List Char → List Char) := by
    funext l
    rfl
  rw [this, List.map_id]
  exact joinNl_jsSplitNl s

theorem jsAt_cons_zero (x : Line) (xs : List Line) : jsAt (x :: xs) 0 = x := by
  simp [jsAt]

/-- Claim C3, amended: a header line that fails the line-number grammar makes
`maskStackLines` skip remapping and return the lines unchanged (grammar
mismatch is reported as "not found", not raised). -/
theorem c3_header_mismatch_skips (stackLines : List Line) (sourceCode : List Char)
    (h : lineNumExec (lineToStr (jsAt stackLines 0)) = none) :
    maskStackLines stackLines sourceCode = some stackLines := by
  unfold maskStackLines
  rw [h]

/-- Witness for the header-mismatch skip at a concrete input. -/
theorem c3_header_mismatch_skips_witness :
    maskStackLines [some ("hello".toList)] ("x".toList) = some [some ("hello".toList)] := by
  have h : lineNumExec (lineToStr (jsAt [some ("hello".toList)] 0)) = none := by decide
  exact c3_header_mismatch_skips [some ("hello".toList)] ("x".toList) h

/-- Claim C7, amended: whenever the recovery loop finds no matching clip for
any of the lengths it actually tries (5 down to 1, searching occurrences that
start at or before the reported column), the indicator line is deleted from the
stack-line array. -/
theorem c7_amended (l0 stackLine ind : List Char) (rest : List Line)
    (sourceCode srcLine : List Char) (lineNum : Nat) (nc : Int)
    (h0 : lineNumExec l0 = some lineNum)
    (hsrc : jsAt ((jsSplitNl sourceCode).map some) ((lineNum : Int) - 1) = some srcLine)
    (hrec : codeRecoverColumn stackLine srcLine (jsIndexOf ind ['^']) = some nc)
    (hneg : nc < 0)
    (hrepl : ("repl:".toList).isPrefixOf l0 = false) :
    maskStackLines (some l0 :: some stackLine :: some ind :: rest) sourceCode =
      some (some l0 :: some srcLine :: rest) := by
  unfold maskStackLines
  rw [show jsAt (some l0 :: some stackLine :: some ind :: rest) 0 = some l0 from rfl]
  rw [show lineToStr (some l0) = l0 from rfl, h0]
  rw [show jsAt (some l0 :: some stackLine :: some ind :: rest) 2 = some ind from rfl]
  simp only
  rw [show jsAt (some l0 :: some stackLine :: some ind :: rest) 1 = some stackLine from rfl]
  rw [hsrc]
  dsimp only
  rw [hrec]
  dsimp only
  rw [if_pos hneg]
  simp [jsAt, ← List.isPrefixOf_iff_prefix]
  exact hrepl

/-- Witness for the deletion branch at the claim's own example: generated line
"aaaaaa", original line "bbbbbb", reported column 0. -/
theorem c7_amended_witness :
    maskStackLines [some ("f:1".toList), some ("aaaaaa".toList), some ("^".toList),
        some [], some ("m".toList)] ("bbbbbb".toList) =
      some [some ("f:1".toList), some ("bbbbbb".toList), some [], some ("m".toList)] := by
  exact c7_amended ("f:1".toList) ("aaaaaa".toList) ("^".toList)
    [some [], some ("m".toList)] ("bbbbbb".toList) ("bbbbbb".toList) 1 (-1)
    (by decide) (by decide) (by decide) (by decide) (by decide)

/-- Claim C8: the indicator line and the trailing column reference are
rewritten only when the recovered column is strictly smaller than the reported
one; a recovered column at or beyond the reported column leaves every line
except the substituted source line untouched, so the indicator stays put. -/
theorem c8_strict_rewrite (l0 stackLine ind : List Char) (rest : List Line)
    (sourceCode srcLine : List Char) (lineNum : Nat) (nc : Int)
    (h0 : lineNumExec l0 = some lineNum)
    (hsrc : jsAt ((jsSplitNl sourceCode).map some) ((lineNum : Int) - 1) = some srcLine)
    (hrec : codeRecoverColumn stackLine srcLine (jsIndexOf ind ['^']) = some nc)
    (hnc : 0 ≤ nc)
    (hrepl : ("repl:".toList).isPrefixOf l0 = false) :
    (jsIndexOf ind ['^'] ≤ nc →
      maskStackLines (some l0 :: some stackLine :: some ind :: rest) sourceCode =
        some (some l0 :: some srcLine :: some ind :: rest)) ∧
    (∀ s5 : List Char, nc < jsIndexOf ind ['^'] →
      jsAt (some l0 :: some stackLine :: some ind :: rest) 5 = some s5 →
      maskStackLines (some l0 :: some stackLine :: some ind :: rest) sourceCode =
        some (some l0 :: some srcLine ::
          some (List.replicate nc.toNat ' ' ++ ['^']) ::
          rest.set 2 (some (columnNumReplace s5 nc.toNat)))) := by
  constructor
  · intro hge
    unfold maskStackLines
    rw [show jsAt (some l0 :: some stackLine :: some ind :: rest) 0 = some l0 from rfl]
    rw [show lineToStr (some l0) = l0 from rfl, h0]
    rw [show jsAt (some l0 :: some stackLine :: some ind :: rest) 2 = some ind from rfl]
    simp only
    rw [show jsAt (some l0 :: some stackLine :: some ind :: rest) 1 = some stackLine from rfl]
    rw [hsrc]
    dsimp only
    rw [hrec]
    dsimp only
    rw [if_neg (by omega), if_neg (by omega)]
    simp [jsAt, ← List.isPrefixOf_iff_prefix]
    exact hrepl
  · intro s5 hlt h5
    unfold maskStackLines
    rw [show jsAt (some l0 :: some stackLine :: some ind :: rest) 0 = some l0 from rfl]
    rw [show lineToStr (some l0) = l0 from rfl, h0]
    rw [show jsAt (some l0 :: some stackLine :: some ind :: rest) 2 = some ind from rfl]
    simp only
    rw [show jsAt (some l0 :: some stackLine :: some ind :: rest) 1 = some stackLine from rfl]
    rw [hsrc]
    dsimp only
    rw [hrec]
    dsimp only
    rw [if_neg (by omega), if_pos hlt]
    have h5' : jsAt (((some l0 :: some stackLine :: some ind :: rest).set 1
        (some srcLine)).set 2 (some (List.replicate nc.toNat ' ' ++ ['^']))) 5 =
        some s5 := by
      rw [show ((some l0 :: some stackLine :: some ind :: rest).set 1
        (some srcLine)).set 2 (some (List.replicate nc.toNat ' ' ++ ['^'])) =
        some l0 :: some srcLine ::
          some (List.replicate nc.toNat ' ' ++ ['^']) :: rest from rfl]
      rw [show jsAt (some l0 :: some srcLine ::
        some (List.replicate nc.toNat ' ' ++ ['^']) :: rest) 5 =
        jsAt (some l0 :: some stackLine :: some ind :: rest) 5 from rfl]
      exact h5
    rw [h5']
    dsimp only
    rw [show (((some l0 :: some stackLine :: some ind :: rest).set 1
      (some srcLine)).set 2 (some (List.replicate nc.toNat ' ' ++ ['^']))).set 5
        (some (columnNumReplace s5 nc.toNat)) =
      some l0 :: some srcLine :: some (List.replicate nc.toNat ' ' ++ ['^']) ::
        rest.set 2 (some (columnNumReplace s5 nc.toNat)) from rfl]
    simp [jsAt, ← List.isPrefixOf_iff_prefix]
    exact hrepl

/-- Witness for the no-rewrite branch: the recovered column equals the
reported column 2, and the indicator stays. -/
theorem c8_strict_rewrite_witness :
    maskStackLines [some ("f:1".toList), some ("xyab".toList), some ("  ^".toList),
        some [], some ("m".toList), some ("fr".toList)] ("u ab u".toList) =
      some [some ("f:1".toList), some ("u ab u".toList), some ("  ^".toList),
        some [], some ("m".toList), some ("fr".toList)] := by
  exact (c8_strict_rewrite ("f:1".toList) ("xyab".toList) ("  ^".toList)
    [some [], some ("m".toList), some ("fr".toList)] ("u ab u".toList)
    ("u ab u".toList) 1 2 (by decide) (by decide) (by decide) (by decide)
    (by decide)).1 (by decide)

/-- Claim C5, amended: with the compiled buffer absent the runtime masker never
synthesizes a header block (the output is exactly the scrub-then-remap
pipeline, with the fill step bypassed), and when additionally the scrubbed
first line fails the line-number grammar the result is exactly the
self-frame-scrubbed input text. -/
theorem c5_amended (selfPath stack sourceCode : List Char) :
    maskStack selfPath stack sourceCode none =
      (match maskStackLines ((jsSplitNl (scrubStack selfPath stack)).map some)
          sourceCode with
       | none => none
       | some ls2 => some (jsJoinNl ls2)) ∧
    (lineNumExec (lineToStr
        (jsAt ((jsSplitNl (scrubStack selfPath stack)).map some) 0)) = none →
      maskStack selfPath stack sourceCode none = some (scrubStack selfPath stack)) := by
  constructor
  · rfl
  · intro h
    have h2 : maskStackLines ((jsSplitNl (scrubStack selfPath stack)).map some)
        sourceCode = some ((jsSplitNl (scrubStack selfPath stack)).map some) := by
      unfold maskStackLines
      rw [h]
    show (match maskStackLines ((jsSplitNl (scrubStack selfPath stack)).map some)
        sourceCode with
      | none => none
      | some ls2 => some (jsJoinNl ls2)) = some (scrubStack selfPath stack)
    rw [h2]
    dsimp only
    rw [jsJoinNl_map_some]

/-- Witness: a diagnostic with no line-number pattern passes through the
runtime masker untouched when the compiled buffer is absent. -/
theorem c5_amended_witness :
    maskStack ("ZZZ".toList) ("hello\nworld".toList) ("s".toList) none =
      some ("hello\nworld".toList) := by
  have h := (c5_amended ("ZZZ".toList) ("hello\nworld".toList) ("s".toList)).2
    (by decide)
  rw [h]
  decide

/-- Once the trap flag is set, a read changes nothing. -/
theorem readsState_fixed (mask : List Char → Option (List Char)) (s : WrapState)
    (h : s.trapSet = true) : ∀ n, readsState mask n s = s := by
  intro n
  induction n with
  | zero => rfl
  | succ n ih =>
    show readsState mask n (maskStackTraceGet mask s).2 = s
    have hstep : (maskStackTraceGet mask s).2 = s := by
      simp [maskStackTraceGet, h]
    rw [hstep]
    exact ih

/-- Claim C4, amended: the one-shot behaviour lives in the wrapper, not in the
masking functions.  A read with the trap already set returns the stored text
and leaves the state untouched (no re-masking, no second context block); the
first read sets the trap and runs the masking computation exactly once, after
which any number of further reads leaves the state fixed. -/
theorem c4_one_shot (mask : List Char → Option (List Char)) (s : WrapState) :
    (s.trapSet = true → maskStackTraceGet mask s = (some s.errStack, s)) ∧
    (s.trapSet = false → ((maskStackTraceGet mask s).2).trapSet = true ∧
      ((maskStackTraceGet mask s).2).maskCalls = s.maskCalls + 1 ∧
      ∀ n : Nat, readsState mask n (maskStackTraceGet mask s).2 =
        (maskStackTraceGet mask s).2) := by
  constructor
  · intro h
    simp [maskStackTraceGet, h]
  · intro h
    rcases hm : mask s.errStack with _ | t
    · have h2 : ((maskStackTraceGet mask s).2).trapSet = true := by
        simp [maskStackTraceGet, h, hm]
      refine ⟨h2, ?_, fun n => readsState_fixed mask _ h2 n⟩
      simp [maskStackTraceGet, h, hm]
    · have h2 : ((maskStackTraceGet mask s).2).trapSet = true := by
        simp [maskStackTraceGet, h, hm]
      refine ⟨h2, ?_, fun n => readsState_fixed mask _ h2 n⟩
      simp [maskStackTraceGet, h, hm]

/-- Witness: a read through an already-set trap returns the stored text and
keeps the state, for the real parser masker as the masking computation. -/
theorem c4_one_shot_witness :
    maskStackTraceGet (fun s => some (maskParserStack ("Z".toList) s ("s".toList)))
        ⟨true, ("m".toList), 1, 1⟩ =
      (some ("m".toList), ⟨true, ("m".toList), 1, 1⟩) := by
  exact (c4_one_shot (fun s => some (maskParserStack ("Z".toList) s ("s".toList)))
    ⟨true, ("m".toList), 1, 1⟩).1 rfl

/-- Claim C9: across any sequence of `n ≥ 1` reads of the stack attribute of a
freshly wrapped Failure whose masking computation succeeds, the source-buffer
producer is invoked exactly once, the masking computation runs exactly once,
and every read (the first and all subsequent ones) returns the masked text. -/
theorem c9_deferred_once (mask : List Char → Option (List Char)) (raw t : List Char)
    (n k : Nat) (hm : mask raw = some t) (hn : 1 ≤ n) (hk : 1 ≤ k) (hkn : k ≤ n) :
    (readsState mask n ⟨false, raw, 0, 0⟩).producerCalls = 1 ∧
    (readsState mask n ⟨false, raw, 0, 0⟩).maskCalls = 1 ∧
    readValue mask ⟨false, raw, 0, 0⟩ k = some t := by
  have hs1 : maskStackTraceGet mask ⟨false, raw, 0, 0⟩ =
      (some t, ⟨true, t, 1, 1⟩) := by
    simp [maskStackTraceGet, hm]
  have hfix : ∀ m : Nat, 1 ≤ m →
      readsState mask m ⟨false, raw, 0, 0⟩ = ⟨true, t, 1, 1⟩ := by
    intro m hm1
    obtain ⟨m', rfl⟩ : ∃ m', m = m' + 1 := ⟨m - 1, by omega⟩
    show readsState mask m' (maskStackTraceGet mask ⟨false, raw, 0, 0⟩).2 = _
    rw [hs1]
    exact readsState_fixed mask ⟨true, t, 1, 1⟩ rfl m'
  refine ⟨?_, ?_, ?_⟩
  · rw [hfix n hn]
  · rw [hfix n hn]
  · unfold readValue
    rcases k with _ | k'
    · omega
    · rcases k' with _ | k''
      · show (maskStackTraceGet mask
          (readsState mask 0 ⟨false, raw, 0, 0⟩)).1 = some t
        rw [show readsState mask 0 ⟨false, raw, 0, 0⟩ =
          (⟨false, raw, 0, 0⟩ : WrapState) from rfl, hs1]
      · show (maskStackTraceGet mask
          (readsState mask (k'' + 1) ⟨false, raw, 0, 0⟩)).1 = some t
        rw [hfix (k'' + 1) (by omega)]
        simp [maskStackTraceGet]

/-- Witness: three reads through a wrapper around the real runtime masker call
the producer once, mask once, and the second read returns the cached text. -/
theorem c9_deferred_once_witness :
    (readsState (fun s => maskStack ("ZZZ".toList) s ("dd".toList) none) 3
      ⟨false, ("a:1\nbb\ncc".toList), 0, 0⟩).producerCalls = 1 ∧
    (readsState (fun s => maskStack ("ZZZ".toList) s ("dd".toList) none) 3
      ⟨false, ("a:1\nbb\ncc".toList), 0, 0⟩).maskCalls = 1 ∧
    readValue (fun s => maskStack ("ZZZ".toList) s ("dd".toList) none)
      ⟨false, ("a:1\nbb\ncc".toList), 0, 0⟩ 2 = some ("a:1\ndd".toList) := by
  exact c9_deferred_once (fun s => maskStack ("ZZZ".toList) s ("dd".toList) none)
    ("a:1\nbb\ncc".toList) ("a:1\ndd".toList) 3 2 (by decide)
    (by omega) (by omega) (by omega)

/-- Claim C10: the first read assigns the masked text to the underlying error
object's own stack property, so a later direct read on the unwrapped object
sees the masked text. -/
theorem c10_mutates_underlying (mask : List Char → Option (List Char))
    (raw t : List Char) (hm : mask raw = some t) :
    ((maskStackTraceGet mask ⟨false, raw, 0, 0⟩).2).errStack = t := by
  simp [maskStackTraceGet, hm]

/-- Witness: after the first read through a wrapper around the real parser
masker, the underlying object's stack holds the masked text. -/
theorem c10_mutates_underlying_witness :
    ((maskStackTraceGet (fun s => some (maskParserStack ("__x__".toList) s
        ("l1\nl2\nl3\nl4\nl5".toList))) ⟨false,
        ("SyntaxError: Unexpected token (3:10) while processing file: /x/y.js".toList),
        0, 0⟩).2).errStack =
      ("/x/y.js:3\nl3\n          ^\n\nSyntaxError: Unexpected token".toList) := by
  exact c10_mutates_underlying _ _ _ (by decide)

/-- Counterexample to claim C1 as stated: at generated line "xxxxxab", original
line "zab ab", reported column 5, the claimed algorithm (clip lengths 6 down to
2, last occurrence at or before column + 1) recovers column 4, but the code
recovers column 1: the code's first clip length is 5, not 6, and its inner loop
walks past the last occurrence down to the earliest one. -/
theorem c1_counterexample :
    claimRecoverColumn ("xxxxxab".toList) ("zab ab".toList) 5 = some 4 ∧
    codeRecoverColumn ("xxxxxab".toList) ("zab ab".toList) 5 = some 1 ∧
    codeRecoverColumn ("xxxxxab".toList) ("zab ab".toList) 5 ≠
      claimRecoverColumn ("xxxxxab".toList) ("zab ab".toList) 5 := by
  refine ⟨by decide, by decide, ?_⟩
  decide

/-- Counterexample to claim C2 as stated: on the claim's own generated and
original lines with reported column 14, the masker rewrites the indicator to
column 12 (the "bar)" match), not to 8 leading spaces. -/
theorem c2_counterexample :
    maskStack ("__esm_internal__".toList)
      (("file.js:1\nconst x = foo(bar);\n" ++
        String.mk (List.replicate 14 ' ') ++
        "^\n\nTypeError: foo is not a function\n    at blah (file.js:1:15)").toList)
      ("let x = foo(bar)".toList) (some ("const x = foo(bar);".toList)) =
      some (("file.js:1\nlet x = foo(bar)\n" ++
        String.mk (List.replicate 12 ' ') ++
        "^\n\nTypeError: foo is not a function\n    at blah (file.js:1:12)").toList) ∧
    (List.replicate 12 ' ' ++ ['^'] : List Char) ≠ List.replicate 8 ' ' ++ ['^'] := by
  refine ⟨by decide, by decide⟩

/-- Claim C2, amended: the recovered column on that input is 12, still strictly
below the reported 14, and the masker rewrites the indicator line to 12 leading
spaces followed by a caret. -/
theorem c2_amended :
    codeRecoverColumn ("const x = foo(bar);".toList) ("let x = foo(bar)".toList)
      14 = some 12 ∧
    (12 : Int) < 14 ∧
    maskStackLines [some ("file.js:1".toList), some ("const x = foo(bar);".toList),
        some (List.replicate 14 ' ' ++ ['^']), some [],
        some ("TypeError: foo is not a function".toList),
        some ("    at blah (file.js:1:15)".toList)] ("let x = foo(bar)".toList) =
      some [some ("file.js:1".toList), some ("let x = foo(bar)".toList),
        some (List.replicate 12 ' ' ++ ['^']), some [],
        some ("TypeError: foo is not a function".toList),
        some ("    at blah (file.js:1:12)".toList)] := by
  refine ⟨by decide, by decide, by decide⟩

/-- Counterexample to claim C3 as stated: a frame line that matches the
line-number grammar but not the column grammar makes the runtime masker throw
(`columnNumRegExp.exec(stackFrame)[1]` on a `null` result), so no text result
is produced. -/
theorem c3_counterexample :
    maskStack ("Q".toList) ("SyntaxError: bad\n    at f :7 q".toList)
      ("x".toList) (some ("x".toList)) = none := by
  decide

/-- Counterexample to claim C4 as stated: applying the parser masker to its own
output changes it again (a second, degenerate context block is spliced in), so
the masking function itself is not idempotent. -/
theorem c4_counterexample :
    maskParserStack ("Q".toList)
      (maskParserStack ("Q".toList)
        ("SyntaxError: Unexpected token (3:10) while processing file: /x/y.js".toList)
        ("l1\nl2\nl3\nl4\nl5".toList))
      ("l1\nl2\nl3\nl4\nl5".toList) ≠
    maskParserStack ("Q".toList)
      ("SyntaxError: Unexpected token (3:10) while processing file: /x/y.js".toList)
      ("l1\nl2\nl3\nl4\nl5".toList) := by
  decide

/-- Counterexample to claim C5 as stated: with the compiled buffer absent, a
header that matches the line-number grammar still drives the context-rewriting
step, which here replaces the code line and deletes the indicator line, so the
output differs from the (unchanged) scrubbed input. -/
theorem c5_counterexample :
    maskStack ("ZZZ".toList) ("a:1\nbb\ncc".toList) ("dd".toList) none =
      some ("a:1\ndd".toList) ∧
    scrubStack ("ZZZ".toList) ("a:1\nbb\ncc".toList) = ("a:1\nbb\ncc".toList) ∧
    ("a:1\ndd".toList : List Char) ≠ ("a:1\nbb\ncc".toList) := by
  refine ⟨by decide, by decide, by decide⟩

/-- Claim C6: the parser masker on the spec's example header with a five-line
source buffer produces exactly the path-line, the third source line, an
indicator of ten spaces and a caret, a blank line, and the restated message. -/
theorem c6_parser_masker_example :
    jsSplitNl (maskParserStack ("__esm_internal__".toList)
      ("SyntaxError: Unexpected token (3:10) while processing file: /x/y.js".toList)
      ("l1\nl2\nl3\nl4\nl5".toList)) =
    [("/x/y.js:3".toList), ("l3".toList),
      (List.replicate 10 ' ' ++ ['^']), [],
      ("SyntaxError: Unexpected token".toList)] := by
  decide

/-- Counterexample to claim C7 as stated: at generated line "xyaq", original
line "z a z", reported column 2, no clip of length 6 down to 2 matches (the
claimed recovery reports no match), yet the masker keeps the indicator line:
the code also tries the single-character clip "a", finds it at the reported
column, and the equal recovered column suppresses both rewrite and deletion. -/
theorem c7_counterexample :
    claimRecoverColumn ("xyaq".toList) ("z a z".toList) 2 = none ∧
    maskStackLines [some ("f:1".toList), some ("xyaq".toList), some ("  ^".toList),
        some [], some ("m".toList), some ("fr".toList)] ("z a z".toList) =
      some [some ("f:1".toList), some ("z a z".toList), some ("  ^".toList),
        some [], some ("m".toList), some ("fr".toList)] ∧
    jsAt [some ("f:1".toList), some ("z a z".toList), some ("  ^".toList),
        some [], some ("m".toList), some ("fr".toList)] 2 = some ("  ^".toList) := by
  refine ⟨by decide, by decide, by decide⟩
